import Mathlib

set_option linter.unusedVariables false

/-!
Verification of the LB load balancer (request routing, retry/failover and
backend pool management) against its specification.  The Go source under
`src/main.go` is embedded shallowly: pure decision logic becomes Lean
functions, effects (forwarding, backoff, marking a backend down, HTTP
responses, file writes) become explicit events in a trace, and the
reverse-proxy recursion is driven by a fuel parameter.
-/

/-- One upstream server: its address and liveness flag
(`backend.Backend` with `URL` and `Alive`). -/
structure Backend where
  url : String
  alive : Bool
deriving DecidableEq, Repr

/-- The backend pool: ordered backends plus the round-robin cursor
(`serverpool.ServerPool`). -/
structure ServerPool where
  backends : List Backend
  current : Nat
deriving DecidableEq, Repr

/-- Modelled from the spec: `serverpool.AddBackend` (package not in src)
appends a backend to the ordered pool. -/
def ServerPool.addBackend (p : ServerPool) (b : Backend) : ServerPool :=
  { p with backends := p.backends ++ [b] }

/-- Modelled from the spec: `serverpool.RemoveAllBackend` (package not in src)
clears the pool to empty. -/
def ServerPool.removeAllBackend (p : ServerPool) : ServerPool :=
  { p with backends := [] }

/-- Modelled from the spec: `serverpool.MarkBackendStatus` (package not in src)
sets the liveness of the backend with the given address; no-op when the
address is not found. -/
def ServerPool.markBackendStatus (p : ServerPool) (u : String) (st : Bool) :
    ServerPool :=
  { p with backends := p.backends.map fun b =>
      if b.url = u then { b with alive := st } else b }

/-- Modelled from the spec: the circular scan inside `getNextPeer` — starting
at index `start`, inspect at most `k` positions forward (mod pool size) and
return the first alive backend found. -/
def scanAlive (bs : List Backend) : Nat → Nat → Option Backend
  | _, 0 => none
  | start, k + 1 =>
    match bs.get? (start % bs.length) with
    | some b => if b.alive then some b else scanAlive bs (start + 1) k
    | none => none

/-- Modelled from the spec: `serverpool.GetNextPeer` (package not in src) —
if the pool is empty return none; otherwise increment the cursor and scan
forward circularly through at most `len(backends)` positions from
`cursor mod n`, returning the first alive backend, or none if all are dead. -/
def ServerPool.getNextPeer (p : ServerPool) : Option Backend × ServerPool :=
  let n := p.backends.length
  if n = 0 then (none, p)
  else
    let cur := p.current + 1
    (scanAlive p.backends (cur % n) n, { p with current := cur })

/-- Modelled from the spec: `serverpool.HealthCheck` (package not in src)
probes every backend and sets its liveness to the probe outcome. -/
def ServerPool.healthCheck (probe : String → Bool) (p : ServerPool) :
    ServerPool :=
  { p with backends := p.backends.map fun b => { b with alive := probe b.url } }

/-- Context key `Attempts` (iota 0 in main.go). -/
def Attempts : Nat := 0

/-- Context key `Retry` (iota 1 in main.go). -/
def Retry : Nat := 1

/-- An inbound request carrying its context value chain, most recent first
(`context.WithValue` prepends). -/
structure Request where
  ctxt : List (Nat × Int)
deriving DecidableEq, Repr

/-- Context lookup: first entry with the given key wins, as in Go's nested
context values. -/
def ctxValue : List (Nat × Int) → Nat → Option Int
  | [], _ => none
  | (k, v) :: rest, key => if k = key then some v else ctxValue rest key

/-- `context.WithValue`: wrap the request context with one more entry. -/
def Request.withValue (r : Request) (k : Nat) (v : Int) : Request :=
  ⟨(k, v) :: r.ctxt⟩

/-- `GetAttemptsFromContext` from main.go: the stored value when present,
otherwise 1. -/
def GetAttemptsFromContext (r : Request) : Int :=
  match ctxValue r.ctxt Attempts with
  | some a => a
  | none => 1

/-- `GetRetryFromContext` from main.go: the stored value when present,
otherwise 0. -/
def GetRetryFromContext (r : Request) : Int :=
  match ctxValue r.ctxt Retry with
  | some v => v
  | none => 0

/-- Observable routing events: a `GetNextPeer` call, a forward attempt to a
backend, the fixed backoff wait, marking a backend down, an HTTP error
status, or a successful proxied response. -/
inductive Event where
  | select : Event
  | forward : String → Event
  | backoff : Nat → Event
  | markDown : String → Event
  | respond : Nat → Event
  | respondOk : String → Event
deriving DecidableEq, Repr

mutual

/-- The `LB` handler from main.go: if `attempts > 3` respond 503 at once;
otherwise call `GetNextPeer` and either forward to the peer or respond 503
when none is available.  `fOk` tells whether forwarding to a given backend
address succeeds; the result is the event trace, the final pool, and whether
the run completed within the fuel. -/
def runLB (fOk : String → Bool) : Nat → ServerPool → Request →
    List Event × ServerPool × Bool
  | 0, pool, _ => ([], pool, false)
  | fuel + 1, pool, r =>
    if GetAttemptsFromContext r > 3 then ([Event.respond 503], pool, true)
    else
      match pool.getNextPeer with
      | (some b, pool1) =>
        let out := runServe fOk fuel b pool1 r
        (Event.select :: out.1, out.2)
      | (none, pool1) => ([Event.select, Event.respond 503], pool1, true)

/-- One `proxy.ServeHTTP` call together with its `ErrorHandler` from
main.go: on failure, if `retries < 3` wait 10ms and re-forward to the same
backend with `Retry` incremented; otherwise mark the backend down, increment
`Attempts`, and re-enter `LB`. -/
def runServe (fOk : String → Bool) : Nat → Backend → ServerPool → Request →
    List Event × ServerPool × Bool
  | 0, _, pool, _ => ([], pool, false)
  | fuel + 1, b, pool, r =>
    if fOk b.url then ([Event.forward b.url, Event.respondOk b.url], pool, true)
    else
      let retries := GetRetryFromContext r
      if retries < 3 then
        let out := runServe fOk fuel b pool (r.withValue Retry (retries + 1))
        (Event.forward b.url :: Event.backoff 10 :: out.1, out.2)
      else
        let pool1 := pool.markBackendStatus b.url false
        let out := runLB fOk fuel pool1
          (r.withValue Attempts (GetAttemptsFromContext r + 1))
        (Event.forward b.url :: Event.markDown b.url :: out.1, out.2)

end

/-- The reloadable configuration (`Config` in main.go). -/
structure Config where
  port : String
  urls : List String
deriving DecidableEq, Repr

/-- Observable administration events of `UpdateConfig`, `addServerToPool`
and `main`: persisting the config file, clearing the pool, adding a backend,
terminating via `log.Fatal`, and an HTTP status response. -/
inductive AdminEvent where
  | writeFile : Config → AdminEvent
  | removeAll : AdminEvent
  | addBackend : String → AdminEvent
  | fatal : AdminEvent
  | respond : Nat → AdminEvent
deriving DecidableEq, Repr

/-- `addServerToPool` from main.go: parse each URL (terminating the process
via `log.Fatal` on a parse error, modelled as `parseURL` returning none) and
append a backend with `Alive: true`; returns the admin events and the
resulting pool, or none when the process died. -/
def addServerToPool (parseURL : String → Option String) :
    List String → ServerPool → List AdminEvent × Option ServerPool
  | [], pool => ([], some pool)
  | tok :: rest, pool =>
    match parseURL tok with
    | none => ([AdminEvent.fatal], none)
    | some u =>
      let out := addServerToPool parseURL rest
        (pool.addBackend { url := u, alive := true })
      (AdminEvent.addBackend u :: out.1, out.2)

/-- `UpdateConfig` from main.go: on a JSON parse failure respond 400 and
leave the pool untouched; otherwise persist the new config to the file,
clear the pool, repopulate it from the new urls, and respond 200.  `parsed`
is the outcome of `json.Unmarshal` on the request body; the result carries
the admin events and, unless the process died in `addServerToPool`, the new
pool and response status. -/
def UpdateConfig (parseURL : String → Option String) (parsed : Option Config)
    (pool : ServerPool) : List AdminEvent × Option (ServerPool × Nat) :=
  match parsed with
  | none => ([AdminEvent.respond 400], some (pool, 400))
  | some cfg =>
    let out := addServerToPool parseURL cfg.urls pool.removeAllBackend
    match out.2 with
    | none => (AdminEvent.writeFile cfg :: AdminEvent.removeAll :: out.1, none)
    | some pool2 =>
      (AdminEvent.writeFile cfg :: AdminEvent.removeAll :: out.1
        ++ [AdminEvent.respond 200], some (pool2, 200))

/-- The startup path of `main` from main.go: with an empty url list the
process terminates via `log.Fatal` before serving (modelled as none);
otherwise the pool is populated by `addServerToPool`. -/
def mainStartup (parseURL : String → Option String) (cfg : Config) :
    Option ServerPool :=
  if cfg.urls.length = 0 then none
  else (addServerToPool parseURL cfg.urls ⟨[], 0⟩).2

/-- Wake-up events delivered to the health-checker loop: a ticker tick or
the cancellation of the shutdown context. -/
inductive HCEvent where
  | tick : HCEvent
  | done : HCEvent
deriving DecidableEq, Repr

/-- The `HealthCheck` loop from main.go, driven by the sequence of select
outcomes: each tick runs one pool health check, and the first `done`
(shutdown signal) makes the loop return.  The result is the final pool, the
number of health checks performed, and whether the loop returned. -/
def HealthCheck (probe : String → Bool) :
    List HCEvent → ServerPool → ServerPool × Nat × Bool
  | [], p => (p, 0, false)
  | HCEvent.tick :: rest, p =>
    let out := HealthCheck probe rest (p.healthCheck probe)
    (out.1, out.2.1 + 1, out.2.2)
  | HCEvent.done :: _, p => (p, 0, true)

/-- Number of `select` events (calls to `GetNextPeer`) in a trace. -/
def countSelect (t : List Event) : Nat :=
  t.count Event.select

/-- Number of forward attempts to the backend at address `u` in a trace. -/
def countForward (t : List Event) (u : String) : Nat :=
  t.count (Event.forward u)

/-- Adding a `Retry` value leaves the attempts count unchanged. -/
lemma getAttempts_withValue_retry (r : Request) (v : Int) :
    GetAttemptsFromContext (r.withValue Retry v) = GetAttemptsFromContext r := by
  simp [GetAttemptsFromContext, Request.withValue, ctxValue, Retry, Attempts]

/-- Adding an `Attempts` value leaves the retry count unchanged. -/
lemma getRetry_withValue_attempts (r : Request) (v : Int) :
    GetRetryFromContext (r.withValue Attempts v) = GetRetryFromContext r := by
  simp [GetRetryFromContext, Request.withValue, ctxValue, Retry, Attempts]

/-- Reading back a just-stored `Attempts` value. -/
lemma getAttempts_withValue_attempts (r : Request) (v : Int) :
    GetAttemptsFromContext (r.withValue Attempts v) = v := by
  simp [GetAttemptsFromContext, Request.withValue, ctxValue]

/-- Reading back a just-stored `Retry` value. -/
lemma getRetry_withValue_retry (r : Request) (v : Int) :
    GetRetryFromContext (r.withValue Retry v) = v := by
  simp [GetRetryFromContext, Request.withValue, ctxValue]

/-- A request with no stored retry value has retry count 0. -/
lemma getRetry_of_none (r : Request) (h : ctxValue r.ctxt Retry = none) :
    GetRetryFromContext r = 0 := by
  simp [GetRetryFromContext, h]

/-- A request with no stored attempts value has attempts count 1. -/
lemma getAttempts_of_none (r : Request) (h : ctxValue r.ctxt Attempts = none) :
    GetAttemptsFromContext r = 1 := by
  simp [GetAttemptsFromContext, h]

/-- Unfolding one retry step of the error handler: on a failure with
`retries < 3`, the trace gains a forward and a 10ms backoff, and the same
backend is re-forwarded with the retry count incremented by 1. -/
lemma runServe_retry_step (fOk : String → Bool) (fuel : Nat) (b : Backend)
    (pool : ServerPool) (r : Request) (hf : fOk b.url = false)
    (hr : GetRetryFromContext r < 3) :
    runServe fOk (fuel + 1) b pool r =
      (Event.forward b.url :: Event.backoff 10 ::
         (runServe fOk fuel b pool
           (r.withValue Retry (GetRetryFromContext r + 1))).1,
       (runServe fOk fuel b pool
         (r.withValue Retry (GetRetryFromContext r + 1))).2) := by
  simp [runServe, hf, hr]

/-- Unfolding the failover step of the error handler: on a failure with
`retries >= 3`, the backend is marked down and routing re-enters `LB` with
the attempts count incremented by 1. -/
lemma runServe_markdown_step (fOk : String → Bool) (fuel : Nat) (b : Backend)
    (pool : ServerPool) (r : Request) (hf : fOk b.url = false)
    (hr : ¬ GetRetryFromContext r < 3) :
    runServe fOk (fuel + 1) b pool r =
      (Event.forward b.url :: Event.markDown b.url ::
         (runLB fOk fuel (pool.markBackendStatus b.url false)
           (r.withValue Attempts (GetAttemptsFromContext r + 1))).1,
       (runLB fOk fuel (pool.markBackendStatus b.url false)
         (r.withValue Attempts (GetAttemptsFromContext r + 1))).2) := by
  simp [runServe, hf, hr]

/-- A backend produced by the circular scan has its liveness flag set. -/
lemma scanAlive_alive (bs : List Backend) :
    ∀ k start b, scanAlive bs start k = some b → b.alive = true := by
  intro k
  induction k with
  | zero => intro start b h; simp [scanAlive] at h
  | succ k ih =>
    intro start b h
    unfold scanAlive at h
    rcases hg : bs.get? (start % bs.length) with _ | c
    · rw [hg] at h; simp at h
    · rw [hg] at h
      by_cases hc : c.alive
      · simp [hc] at h
        exact h ▸ hc
      · simp [hc] at h
        exact ih (start + 1) b h

/-- When every backend in the list is dead, the circular scan finds none. -/
lemma scanAlive_all_dead (bs : List Backend)
    (hd : ∀ b ∈ bs, b.alive = false) :
    ∀ k start, scanAlive bs start k = none := by
  intro k
  induction k with
  | zero => intro start; simp [scanAlive]
  | succ k ih =>
    intro start
    unfold scanAlive
    rcases hg : bs.get? (start % bs.length) with _ | c
    · simp
    · have hc : c.alive = false := hd c (List.get?_mem hg)
      simp [hc, ih]

/-- Counting a leading `select` event. -/
lemma countSelect_cons_select (t : List Event) :
    countSelect (Event.select :: t) = countSelect t + 1 := by
  simp [countSelect, List.count_cons]

/-- A non-`select` head does not change the selection count. -/
lemma countSelect_cons_of_ne (e : Event) (t : List Event)
    (h : e ≠ Event.select) : countSelect (e :: t) = countSelect t := by
  simp [countSelect, List.count_cons, h]

/-- Joint selection bound: a routing run starting from attempts count `a`
performs at most `(4 - a).toNat` backend selections, and a serve run at most
`(3 - a).toNat` (its selections all happen after `attempts` is incremented). -/
lemma select_bound (fOk : String → Bool) :
    ∀ fuel,
      (∀ pool r, countSelect (runLB fOk fuel pool r).1 ≤
        (4 - GetAttemptsFromContext r).toNat) ∧
      (∀ b pool r, countSelect (runServe fOk fuel b pool r).1 ≤
        (3 - GetAttemptsFromContext r).toNat) := by
  intro fuel
  induction fuel with
  | zero =>
    constructor
    · intro pool r; simp [runLB, countSelect]
    · intro b pool r; simp [runServe, countSelect]
  | succ fuel ih =>
    obtain ⟨ihLB, ihServe⟩ := ih
    constructor
    · intro pool r
      by_cases ha : GetAttemptsFromContext r > 3
      · have heq : (runLB fOk (fuel + 1) pool r).1 = [Event.respond 503] := by
          simp [runLB, ha]
        rw [heq]
        simp [countSelect]
      · rcases hp : pool.getNextPeer with ⟨o, pool1⟩
        rcases o with _ | b
        · have heq : (runLB fOk (fuel + 1) pool r).1 =
              [Event.select, Event.respond 503] := by
            simp [runLB, ha, hp]
          rw [heq]
          have : countSelect [Event.select, Event.respond 503] = 1 := by
            simp [countSelect]
          rw [this]
          omega
        · have heq : (runLB fOk (fuel + 1) pool r).1 =
              Event.select :: (runServe fOk fuel b pool1 r).1 := by
            simp [runLB, ha, hp]
          rw [heq, countSelect_cons_select]
          have hs := ihServe b pool1 r
          omega
    · intro b pool r
      by_cases hf : fOk b.url
      · have heq : (runServe fOk (fuel + 1) b pool r).1 =
            [Event.forward b.url, Event.respondOk b.url] := by
          simp [runServe, hf]
        rw [heq]
        simp [countSelect]
      · have hf' : fOk b.url = false := by simpa using hf
        by_cases hr : GetRetryFromContext r < 3
        · have heq := runServe_retry_step fOk fuel b pool r hf' hr
          have h1 : (runServe fOk (fuel + 1) b pool r).1 =
              Event.forward b.url :: Event.backoff 10 ::
                (runServe fOk fuel b pool
                  (r.withValue Retry (GetRetryFromContext r + 1))).1 := by
            rw [heq]
          rw [h1, countSelect_cons_of_ne _ _ (by simp),
            countSelect_cons_of_ne _ _ (by simp)]
          have hs := ihServe b pool (r.withValue Retry (GetRetryFromContext r + 1))
          rw [getAttempts_withValue_retry] at hs
          exact hs
        · have heq := runServe_markdown_step fOk fuel b pool r hf' hr
          have h1 : (runServe fOk (fuel + 1) b pool r).1 =
              Event.forward b.url :: Event.markDown b.url ::
                (runLB fOk fuel (pool.markBackendStatus b.url false)
                  (r.withValue Attempts (GetAttemptsFromContext r + 1))).1 := by
            rw [heq]
          rw [h1, countSelect_cons_of_ne _ _ (by simp),
            countSelect_cons_of_ne _ _ (by simp)]
          have hs := ihLB (pool.markBackendStatus b.url false)
            (r.withValue Attempts (GetAttemptsFromContext r + 1))
          rw [getAttempts_withValue_attempts] at hs
          omega

/-- C1: if `attempts > 3` when `LB` is entered, the router responds 503
immediately — the trace is exactly the 503 response with no selection event
and the pool is untouched, so `GetNextPeer` is never called; a request
entering with the implicit first attempt performs at most 3 backend
selections; and on a pool of three always-failing backends the run makes
exactly 3 selections and terminates with 503, never attempting a 4th. -/
theorem claim1_attempt_bound :
    (∀ fOk fuel pool r, 1 ≤ fuel → GetAttemptsFromContext r > 3 →
       runLB fOk fuel pool r = ([Event.respond 503], pool, true)) ∧
    (∀ fOk fuel pool r, GetAttemptsFromContext r = 1 →
       countSelect (runLB fOk fuel pool r).1 ≤ 3) ∧
    (countSelect (runLB (fun _ => false) 16
        ⟨[⟨"A", true⟩, ⟨"B", true⟩, ⟨"C", true⟩], 0⟩ ⟨[]⟩).1 = 3 ∧
      (runLB (fun _ => false) 16
        ⟨[⟨"A", true⟩, ⟨"B", true⟩, ⟨"C", true⟩], 0⟩ ⟨[]⟩).1.getLast? =
          some (Event.respond 503) ∧
      (runLB (fun _ => false) 16
        ⟨[⟨"A", true⟩, ⟨"B", true⟩, ⟨"C", true⟩], 0⟩ ⟨[]⟩).2.2 = true) := by
  refine ⟨?_, ?_, by decide, by decide, by decide⟩
  · intro fOk fuel pool r hfe ha
    obtain ⟨f, rfl⟩ : ∃ f, fuel = f + 1 := ⟨fuel - 1, by omega⟩
    simp [runLB, ha]
  · intro fOk fuel pool r h1
    have hb := (select_bound fOk fuel).1 pool r
    rw [h1] at hb
    omega

/-- Witness for C1: the two hypothetical parts applied at concrete inputs —
a request carrying attempts 5 gets the immediate 503 with no selection, and
a fresh request on an empty pool performs at most 3 selections. -/
theorem claim1_attempt_bound_witness :
    runLB (fun _ => true) 1 ⟨[], 0⟩ ⟨[(0, 5)]⟩ =
      ([Event.respond 503], ⟨[], 0⟩, true) ∧
    countSelect (runLB (fun _ => true) 6 ⟨[], 0⟩ ⟨[]⟩).1 ≤ 3 :=
  ⟨claim1_attempt_bound.1 (fun _ => true) 1 ⟨[], 0⟩ ⟨[(0, 5)]⟩ (by decide)
      (by decide),
   claim1_attempt_bound.2.1 (fun _ => true) 6 ⟨[], 0⟩ ⟨[]⟩ (by decide)⟩

/-- C2: on a forwarding failure with `retries < 3` the error handler emits
the fixed 10ms backoff and re-forwards the same backend with the retry count
incremented by exactly 1; consequently a backend whose forwarding always
fails, starting from a request with no stored retry value, receives exactly
4 forward attempts (the original plus 3 retries, each after a 10ms backoff)
and is then marked down. -/
theorem claim2_retry_bound :
    (∀ fOk fuel b pool r, fOk b.url = false → GetRetryFromContext r < 3 →
       1 ≤ fuel →
       runServe fOk fuel b pool r =
         (Event.forward b.url :: Event.backoff 10 ::
            (runServe fOk (fuel - 1) b pool
              (r.withValue Retry (GetRetryFromContext r + 1))).1,
          (runServe fOk (fuel - 1) b pool
            (r.withValue Retry (GetRetryFromContext r + 1))).2)) ∧
    (∀ fOk fuel b pool r, fOk b.url = false → ctxValue r.ctxt Retry = none →
       4 ≤ fuel →
       ∃ rest, (runServe fOk fuel b pool r).1 =
         Event.forward b.url :: Event.backoff 10 :: Event.forward b.url ::
           Event.backoff 10 :: Event.forward b.url :: Event.backoff 10 ::
           Event.forward b.url :: Event.markDown b.url :: rest) := by
  constructor
  · intro fOk fuel b pool r hf hr hfe
    obtain ⟨f, rfl⟩ : ∃ f, fuel = f + 1 := ⟨fuel - 1, by omega⟩
    simpa using runServe_retry_step fOk f b pool r hf hr
  · intro fOk fuel b pool r hf h0 hfe
    obtain ⟨f, rfl⟩ : ∃ f, fuel = f + 1 + 1 + 1 + 1 := ⟨fuel - 4, by omega⟩
    have hr0 : GetRetryFromContext r = 0 := getRetry_of_none r h0
    simp [runServe, hf, hr0, getRetry_withValue_retry,
      getAttempts_withValue_retry]

/-- Witness for C2: both parts applied at concrete inputs — one retry step
from a fresh request, and the full 4-forward/mark-down shape. -/
theorem claim2_retry_bound_witness :
    runServe (fun _ => false) 3 ⟨"A", true⟩ ⟨[], 0⟩ ⟨[]⟩ =
      (Event.forward "A" :: Event.backoff 10 ::
         (runServe (fun _ => false) 2 ⟨"A", true⟩ ⟨[], 0⟩ ⟨[(1, 1)]⟩).1,
       (runServe (fun _ => false) 2 ⟨"A", true⟩ ⟨[], 0⟩ ⟨[(1, 1)]⟩).2) ∧
    (∃ rest, (runServe (fun _ => false) 4 ⟨"A", true⟩ ⟨[], 0⟩ ⟨[]⟩).1 =
      Event.forward "A" :: Event.backoff 10 :: Event.forward "A" ::
        Event.backoff 10 :: Event.forward "A" :: Event.backoff 10 ::
        Event.forward "A" :: Event.markDown "A" :: rest) :=
  ⟨claim2_retry_bound.1 (fun _ => false) 3 ⟨"A", true⟩ ⟨[], 0⟩ ⟨[]⟩ rfl
      (by decide) (by decide),
   claim2_retry_bound.2 (fun _ => false) 4 ⟨"A", true⟩ ⟨[], 0⟩ ⟨[]⟩ rfl
      (by decide) (by decide)⟩

/-- C3 counterexample: pool of alive backends "A" and "B", forwarding always
failing, fresh request.  The first routing cycle selects "B" and gives it 4
forward attempts, but the freshly selected backend "A" of the next cycle is
marked down after a single forward attempt: the old retry count is reused
against it, refuting "the freshly selected backend is itself granted up to 3
same-backend retries". -/
theorem claim3_counterexample :
    countForward (runLB (fun _ => false) 20
      ⟨[⟨"A", true⟩, ⟨"B", true⟩], 0⟩ ⟨[]⟩).1 "B" = 4 ∧
    countForward (runLB (fun _ => false) 20
      ⟨[⟨"A", true⟩, ⟨"B", true⟩], 0⟩ ⟨[]⟩).1 "A" = 1 ∧
    Event.markDown "A" ∈ (runLB (fun _ => false) 20
      ⟨[⟨"A", true⟩, ⟨"B", true⟩], 0⟩ ⟨[]⟩).1 ∧
    (runLB (fun _ => false) 20
      ⟨[⟨"A", true⟩, ⟨"B", true⟩], 0⟩ ⟨[]⟩).2.2 = true := by
  decide

/-- C3 amended: when forwarding fails with `retries >= 3`, the current
backend is marked down, `attempts` is incremented and routing re-enters
`LB`; however the retry count is not reset — it is carried unchanged in the
request context into the new routing cycle, so the freshly selected backend
is granted no same-backend retries (with its retry count still at least 3,
its first forwarding failure marks it down immediately, as this very theorem
applied to the new backend shows). -/
theorem claim3_amended :
    ∀ fOk fuel b pool r, fOk b.url = false → 3 ≤ GetRetryFromContext r →
      1 ≤ fuel →
      GetRetryFromContext (r.withValue Attempts (GetAttemptsFromContext r + 1)) =
        GetRetryFromContext r ∧
      runServe fOk fuel b pool r =
        (Event.forward b.url :: Event.markDown b.url ::
           (runLB fOk (fuel - 1) (pool.markBackendStatus b.url false)
             (r.withValue Attempts (GetAttemptsFromContext r + 1))).1,
         (runLB fOk (fuel - 1) (pool.markBackendStatus b.url false)
           (r.withValue Attempts (GetAttemptsFromContext r + 1))).2) := by
  intro fOk fuel b pool r hf hr hfe
  obtain ⟨f, rfl⟩ : ∃ f, fuel = f + 1 := ⟨fuel - 1, by omega⟩
  refine ⟨getRetry_withValue_attempts r _, ?_⟩
  simpa using runServe_markdown_step fOk f b pool r hf (by omega)

/-- Witness for C3 amended: a request carrying retry count 3 makes the
serve step mark the backend down at once and re-enter routing with the retry
value still present. -/
theorem claim3_amended_witness :
    GetRetryFromContext ⟨[(0, 2), (1, 3)]⟩ = GetRetryFromContext ⟨[(1, 3)]⟩ ∧
    runServe (fun _ => false) 1 ⟨"A", true⟩ ⟨[], 0⟩ ⟨[(1, 3)]⟩ =
      (Event.forward "A" :: Event.markDown "A" ::
         (runLB (fun _ => false) 0
           (ServerPool.markBackendStatus ⟨[], 0⟩ "A" false) ⟨[(0, 2), (1, 3)]⟩).1,
       (runLB (fun _ => false) 0
         (ServerPool.markBackendStatus ⟨[], 0⟩ "A" false) ⟨[(0, 2), (1, 3)]⟩).2) :=
  claim3_amended (fun _ => false) 1 ⟨"A", true⟩ ⟨[], 0⟩ ⟨[(1, 3)]⟩ rfl
    (by decide) (by decide)

/-- C4: `getNextPeer` only ever returns a backend whose liveness flag is
true (in particular it never returns a dead backend while an alive one
exists); when every backend is dead, or the pool is empty, it returns none;
and whenever it returns none the router terminates the request with a 503
response. -/
theorem claim4_skip_dead :
    (∀ (p : ServerPool) (b : Backend) (q : ServerPool),
       p.getNextPeer = (some b, q) → b.alive = true) ∧
    (∀ p : ServerPool, (∀ b ∈ p.backends, b.alive = false) →
       p.getNextPeer.1 = none) ∧
    (∀ fOk fuel pool r, 1 ≤ fuel → pool.getNextPeer.1 = none →
       (runLB fOk fuel pool r).1.getLast? = some (Event.respond 503) ∧
       (runLB fOk fuel pool r).2.2 = true) := by
  refine ⟨?_, ?_, ?_⟩
  · intro p b q h
    by_cases hn : p.backends.length = 0
    · simp [ServerPool.getNextPeer, hn] at h
    · simp [ServerPool.getNextPeer, hn] at h
      exact scanAlive_alive p.backends _ _ b h.1
  · intro p hd
    by_cases hn : p.backends.length = 0
    · simp [ServerPool.getNextPeer, hn]
    · simp [ServerPool.getNextPeer, hn, scanAlive_all_dead p.backends hd]
  · intro fOk fuel pool r hfe hnone
    obtain ⟨f, rfl⟩ : ∃ f, fuel = f + 1 := ⟨fuel - 1, by omega⟩
    by_cases ha : GetAttemptsFromContext r > 3
    · simp [runLB, ha]
    · rcases hp : pool.getNextPeer with ⟨o, q⟩
      rw [hp] at hnone
      simp at hnone
      subst hnone
      simp [runLB, ha, hp]

/-- Witness for C4: an all-alive singleton pool yields an alive peer, an
all-dead pool yields none, and routing over the all-dead pool ends in 503. -/
theorem claim4_skip_dead_witness :
    Backend.alive ⟨"A", true⟩ = true ∧
    (ServerPool.getNextPeer ⟨[⟨"A", false⟩], 0⟩).1 = none ∧
    ((runLB (fun _ => true) 1 ⟨[⟨"A", false⟩], 0⟩ ⟨[]⟩).1.getLast? =
        some (Event.respond 503) ∧
      (runLB (fun _ => true) 1 ⟨[⟨"A", false⟩], 0⟩ ⟨[]⟩).2.2 = true) :=
  ⟨claim4_skip_dead.1 ⟨[⟨"A", true⟩], 0⟩ ⟨"A", true⟩ ⟨[⟨"A", true⟩], 1⟩
      (by decide),
   claim4_skip_dead.2.1 ⟨[⟨"A", false⟩], 0⟩ (by decide),
   claim4_skip_dead.2.2 (fun _ => true) 1 ⟨[⟨"A", false⟩], 0⟩ ⟨[]⟩ (by decide)
     (by decide)⟩

/-- C5 counterexample: a reload whose parsed payload has an empty urls list
is accepted with a 200 and clears a previously non-empty pool, so the
invariant `len(backends) >= 1` is not preserved by reload. -/
theorem claim5_counterexample :
    ServerPool.backends ⟨[⟨"http://a", true⟩], 5⟩ ≠ [] ∧
    (UpdateConfig (fun s => some s) (some ⟨"3000", []⟩)
      ⟨[⟨"http://a", true⟩], 5⟩).2 = some (⟨[], 5⟩, 200) := by
  refine ⟨by decide, rfl⟩

/-- C5 amended: an empty pool at startup is fatal (the process does not
begin serving), but the invariant is not preserved by reload: `UpdateConfig`
performs no emptiness validation, so a reload whose urls list is empty
clears the pool, leaves it empty, and still responds 200. -/
theorem claim5_amended :
    (∀ (parseURL : String → Option String) (cfg : Config), cfg.urls = [] →
       mainStartup parseURL cfg = none) ∧
    (∀ (parseURL : String → Option String) (port : String) (pool : ServerPool),
       ∃ q, (UpdateConfig parseURL (some ⟨port, []⟩) pool).2 = some (q, 200) ∧
         q.backends = []) := by
  constructor
  · intro parseURL cfg h
    simp [mainStartup, h]
  · intro parseURL port pool
    exact ⟨pool.removeAllBackend, rfl, rfl⟩

/-- Witness for C5 amended: a config with no urls is fatal at startup, and a
reload of it over a one-backend pool empties the pool with a 200. -/
theorem claim5_amended_witness :
    mainStartup (fun s => some s) ⟨"p", []⟩ = none ∧
    ∃ q, (UpdateConfig (fun s => some s) (some ⟨"p", []⟩)
        ⟨[⟨"x", true⟩], 0⟩).2 = some (q, 200) ∧ q.backends = [] :=
  ⟨claim5_amended.1 (fun s => some s) ⟨"p", []⟩ rfl,
   claim5_amended.2 (fun s => some s) "p" ⟨[⟨"x", true⟩], 0⟩⟩

/-- C6: a reload payload that fails to parse is answered with 400 and the
handler returns with the pool completely untouched — the trace holds only
the 400 response, with no pool-clearing event. -/
theorem claim6_reload_parse_failure :
    ∀ (parseURL : String → Option String) (pool : ServerPool),
      UpdateConfig parseURL none pool =
        ([AdminEvent.respond 400], some (pool, 400)) := by
  intro parseURL pool
  rfl

/-- C7: the health-checker loop performs exactly one pool health check per
timer tick, and at the first shutdown signal it returns, performing no
further health checks regardless of later wake-ups. -/
theorem claim7_healthcheck_loop :
    ∀ (probe : String → Bool) (pre post : List HCEvent) (p : ServerPool),
      (∀ e ∈ pre, e = HCEvent.tick) →
      HealthCheck probe (pre ++ HCEvent.done :: post) p =
        ((ServerPool.healthCheck probe)^[pre.length] p, pre.length, true) := by
  intro probe pre
  induction pre with
  | nil =>
    intro post p hp
    simp [HealthCheck]
  | cons e rest ih =>
    intro post p hp
    have he : e = HCEvent.tick := hp e (by simp)
    subst he
    simp only [List.cons_append, HealthCheck, List.append_eq]
    rw [ih post (p.healthCheck probe) (fun x hx => hp x (by simp [hx]))]
    simp [Function.iterate_succ_apply]

/-- Witness for C7: two ticks then a shutdown signal, with a further tick
after it, yield exactly two health checks and a returned loop. -/
theorem claim7_healthcheck_loop_witness :
    HealthCheck (fun _ => false)
        [HCEvent.tick, HCEvent.tick, HCEvent.done, HCEvent.tick]
        ⟨[⟨"A", true⟩], 0⟩ =
      ((ServerPool.healthCheck (fun _ => false))^[2] ⟨[⟨"A", true⟩], 0⟩, 2,
        true) :=
  claim7_healthcheck_loop (fun _ => false) [HCEvent.tick, HCEvent.tick]
    [HCEvent.tick] ⟨[⟨"A", true⟩], 0⟩ (by decide)

/-- C8: with no stored attempts value the attempts count is 1 and with no
stored retry value the retry count is 0; when a value is stored, each getter
returns exactly the stored integer. -/
theorem claim8_context_defaults :
    (∀ r : Request, ctxValue r.ctxt Attempts = none →
       GetAttemptsFromContext r = 1) ∧
    (∀ r : Request, ctxValue r.ctxt Retry = none →
       GetRetryFromContext r = 0) ∧
    (∀ (r : Request) (v : Int), ctxValue r.ctxt Attempts = some v →
       GetAttemptsFromContext r = v) ∧
    (∀ (r : Request) (v : Int), ctxValue r.ctxt Retry = some v →
       GetRetryFromContext r = v) := by
  refine ⟨getAttempts_of_none, getRetry_of_none, ?_, ?_⟩
  · intro r v h
    simp [GetAttemptsFromContext, h]
  · intro r v h
    simp [GetRetryFromContext, h]

/-- Witness for C8: the defaults on an empty context and the stored values
7 and 2 read back unchanged. -/
theorem claim8_context_defaults_witness :
    GetAttemptsFromContext ⟨[]⟩ = 1 ∧ GetRetryFromContext ⟨[]⟩ = 0 ∧
    GetAttemptsFromContext ⟨[(0, 7)]⟩ = 7 ∧
    GetRetryFromContext ⟨[(1, 2)]⟩ = 2 :=
  ⟨claim8_context_defaults.1 ⟨[]⟩ rfl, claim8_context_defaults.2.1 ⟨[]⟩ rfl,
   claim8_context_defaults.2.2.1 ⟨[(0, 7)]⟩ 7 rfl,
   claim8_context_defaults.2.2.2 ⟨[(1, 2)]⟩ 2 rfl⟩

/-- When some url in the list fails to parse, `addServerToPool` ends in the
fatal event and yields no pool. -/
lemma addServerToPool_fatal (parseURL : String → Option String) :
    ∀ (toks : List String) (pool : ServerPool),
      (∃ tok ∈ toks, parseURL tok = none) →
      (addServerToPool parseURL toks pool).2 = none ∧
      AdminEvent.fatal ∈ (addServerToPool parseURL toks pool).1 := by
  intro toks
  induction toks with
  | nil =>
    intro pool h
    simp at h
  | cons tok rest ih =>
    intro pool h
    rcases hq : parseURL tok with _ | u
    · simp [addServerToPool, hq]
    · obtain ⟨t, ht, hn⟩ := h
      rcases List.mem_cons.mp ht with rfl | htr
      · rw [hq] at hn
        exact absurd hn (by simp)
      · have hr := ih (pool.addBackend ⟨u, true⟩) ⟨t, htr, hn⟩
        simp [addServerToPool, hq, hr.1, hr.2]

/-- C9: a reload whose payload parses as JSON but contains a url rejected by
the URL parser terminates the process (`log.Fatal`), and by then the new
config has already been written over the config file (first event) and the
old pool has already been cleared (second event): the reload is not atomic,
and the written config is what a restart will read. -/
theorem claim9_reload_fatal :
    ∀ (parseURL : String → Option String) (cfg : Config) (pool : ServerPool),
      (∃ tok ∈ cfg.urls, parseURL tok = none) →
      ∃ evs, UpdateConfig parseURL (some cfg) pool =
        (AdminEvent.writeFile cfg :: AdminEvent.removeAll :: evs, none) ∧
        AdminEvent.fatal ∈ evs := by
  intro parseURL cfg pool h
  have hh := addServerToPool_fatal parseURL cfg.urls pool.removeAllBackend h
  refine ⟨(addServerToPool parseURL cfg.urls pool.removeAllBackend).1, ?_, hh.2⟩
  simp [UpdateConfig, hh.1]

/-- Witness for C9: a reload of `["good", "bad"]` where "bad" fails to
parse writes the file, clears the pool, and then dies. -/
theorem claim9_reload_fatal_witness :
    ∃ evs, UpdateConfig (fun s => if s = "bad" then none else some s)
        (some ⟨"3000", ["good", "bad"]⟩) ⟨[⟨"old", true⟩], 5⟩ =
      (AdminEvent.writeFile ⟨"3000", ["good", "bad"]⟩ ::
        AdminEvent.removeAll :: evs, none) ∧
      AdminEvent.fatal ∈ evs :=
  claim9_reload_fatal (fun s => if s = "bad" then none else some s)
    ⟨"3000", ["good", "bad"]⟩ ⟨[⟨"old", true⟩], 5⟩ ⟨"bad", by decide, by decide⟩

/-- Backends appended by `addServerToPool` all carry liveness true. -/
lemma addServerToPool_backends (parseURL : String → Option String) :
    ∀ (toks : List String) (pool : ServerPool) (evs : List AdminEvent)
      (res : ServerPool),
      addServerToPool parseURL toks pool = (evs, some res) →
      ∃ nw, res.backends = pool.backends ++ nw ∧ ∀ b ∈ nw, b.alive = true := by
  intro toks
  induction toks with
  | nil =>
    intro pool evs res h
    simp [addServerToPool] at h
    exact ⟨[], by simp [h.2], by simp⟩
  | cons tok rest ih =>
    intro pool evs res h
    rcases hq : parseURL tok with _ | u
    · simp [addServerToPool, hq] at h
    · rw [show addServerToPool parseURL (tok :: rest) pool =
          (AdminEvent.addBackend u ::
            (addServerToPool parseURL rest (pool.addBackend ⟨u, true⟩)).1,
           (addServerToPool parseURL rest (pool.addBackend ⟨u, true⟩)).2) from
          by simp [addServerToPool, hq]] at h
      have h2 : (addServerToPool parseURL rest (pool.addBackend ⟨u, true⟩)).2 =
          some res := congrArg Prod.snd h
      rcases hX : addServerToPool parseURL rest (pool.addBackend ⟨u, true⟩)
        with ⟨evs1, ores⟩
      rw [hX] at h2
      simp at h2
      subst h2
      obtain ⟨nw, hbe, hal⟩ := ih (pool.addBackend ⟨u, true⟩) evs1 res hX
      refine ⟨⟨u, true⟩ :: nw, ?_, ?_⟩
      · rw [hbe]
        simp [ServerPool.addBackend]
      · intro b hb
        rcases List.mem_cons.mp hb with rfl | hbn
        · rfl
        · exact hal b hbn

/-- C10: every backend added through `addServerToPool` enters the pool with
its liveness flag unconditionally true (no probe of reachability exists on
that path); a health-check cycle then resets each backend's liveness to the
probe outcome, so an unreachable backend stays down only after that cycle;
and an alive backend is eligible for selection by `getNextPeer`. -/
theorem claim10_alive_on_add :
    (∀ (parseURL : String → Option String) (toks : List String)
       (pool : ServerPool) (evs : List AdminEvent) (res : ServerPool),
       addServerToPool parseURL toks pool = (evs, some res) →
       ∀ b ∈ res.backends, b ∈ pool.backends ∨ b.alive = true) ∧
    (∀ (probe : String → Bool) (p : ServerPool) (b : Backend),
       b ∈ (p.healthCheck probe).backends → b.alive = probe b.url) ∧
    (∀ u : String,
       (ServerPool.getNextPeer ⟨[⟨u, true⟩], 0⟩).1 = some ⟨u, true⟩) := by
  refine ⟨?_, ?_, ?_⟩
  · intro parseURL toks pool evs res h b hb
    obtain ⟨nw, hbe, hal⟩ := addServerToPool_backends parseURL toks pool evs res h
    rw [hbe] at hb
    rcases List.mem_append.mp hb with hold | hnew
    · exact Or.inl hold
    · exact Or.inr (hal b hnew)
  · intro probe p b hb
    simp [ServerPool.healthCheck] at hb
    obtain ⟨a, ha, rfl⟩ := hb
    rfl
  · intro u
    simp [ServerPool.getNextPeer, scanAlive]

/-- Witness for C10: adding "x" to an empty pool yields a backend that is
alive (not previously present), and a failing probe over a pool holding "y"
leaves "y" dead after the health check. -/
theorem claim10_alive_on_add_witness :
    ((⟨"x", true⟩ : Backend) ∈ ServerPool.backends ⟨[], 0⟩ ∨
      Backend.alive ⟨"x", true⟩ = true) ∧
    Backend.alive ⟨"y", false⟩ = false :=
  ⟨claim10_alive_on_add.1 (fun s => some s) ["x"] ⟨[], 0⟩
      [AdminEvent.addBackend "x"] ⟨[⟨"x", true⟩], 0⟩ rfl ⟨"x", true⟩
      (by decide),
   claim10_alive_on_add.2.1 (fun _ => false) ⟨[⟨"y", true⟩], 0⟩ ⟨"y", false⟩
     (by decide)⟩
